import Mathlib

/-!
Verification development for the `pytest_sentry` plugin
(`src/pytest_sentry.py`).  The Python module is shallowly embedded:
pure functions become Lean functions, the in-place mutations of the
SDK event dictionaries become functional updates, and the hookwrapper
machinery (`_with_hub`) is embedded as a small-step semantics over a
stack of Reporting Contexts with an explicit trace of observable
reporting calls.
-/

/-- The two environment variables consulted by the module
(`PYTEST_SENTRY_DSN` in `Client.__init__`, `PYTEST_SENTRY_ALWAYS_REPORT`
in `PytestIntegration.__init__`).  `Option.none` models an unset
variable. -/
structure Env where
  pytest_sentry_dsn : Option String
  pytest_sentry_always_report : Option String
deriving DecidableEq

/-- The `PytestIntegration` class (src lines 12-28): a carrier for the
single behavioural flag `always_report`. -/
structure PytestIntegration where
  always_report : Bool
deriving DecidableEq

/-- The truthy forms accepted for `PYTEST_SENTRY_ALWAYS_REPORT`:
`.lower() in ("1", "true", "yes")` (src lines 20-22). -/
def truthy_env_strings : List String := ["1", "true", "yes"]

/-- Python `str.lower`, character by character (kernel-reducible,
unlike `String.toLower` which recurses on byte positions). -/
def str_lower (s : String) : String :=
  ⟨s.data.map Char.toLower⟩

/-- `PytestIntegration.__init__` (src lines 18-24): an explicit
non-`None` argument wins; otherwise the environment variable decides,
with an unset variable read as the empty string. -/
def PytestIntegration.init (env_val : Option String) (always_report_arg : Option Bool) :
    PytestIntegration :=
  match always_report_arg with
  | Option.none => ⟨truthy_env_strings.contains (str_lower (env_val.getD ""))⟩
  | some b => ⟨b⟩

/-- An entry of a client integration list: either this plugin's
`PytestIntegration` or some other SDK integration, identified by
name. -/
inductive Integration where
  | pytest (i : PytestIntegration)
  | otherIntegration (name : String)
deriving DecidableEq

/-- Keyword arguments accepted by the module's `Client` wrapper, i.e.
the keys touched by the `setdefault` chain in `Client.__init__`
(src lines 31-41).  Each field is `Option`al: `Option.none` means the
key is absent from `kwargs`.  For `dsn` the inner `Option` is the
passed value itself (a user may pass `dsn=None` explicitly).  The
nested `_experiments` dict is modelled by its single flag
`auto_enabling_integrations`. -/
structure ClientKwargs where
  dsn : Option (Option String)
  traces_sample_rate : Option ℚ
  auto_enabling_integrations : Option Bool
  environment : Option String
  integrations : Option (List Integration)
deriving DecidableEq

/-- Empty `kwargs` dictionary. -/
def ClientKwargs.empty : ClientKwargs :=
  ⟨Option.none, Option.none, Option.none, Option.none, Option.none⟩

/-- The configuration a constructed Reporting Destination ends up
with.  Modelled from the spec: the base `sentry_sdk.Client` is an
external collaborator (out of scope per the spec); per the spec a
positional string argument is "treated as an endpoint identifier", so
a positional DSN becomes the destination's endpoint, and otherwise
the keyword / environment default applies. -/
structure Client where
  dsn : Option String
  traces_sample_rate : ℚ
  auto_enabling_integrations : Bool
  environment : String
  integrations : List Integration
deriving DecidableEq

/-- The module's `Client.__init__` (src lines 31-41): `setdefault` of
`dsn` to the `PYTEST_SENTRY_DSN` environment value, of
`traces_sample_rate` to 1, of `_experiments.auto_enabling_integrations`
to true, of `environment` to "test", and unconditional `append` of a
fresh `PytestIntegration()` (environment-derived flag) to the
integration list. -/
def Client.init (env : Env) (pos_dsn : Option String) (kw : ClientKwargs) : Client :=
  { dsn := match pos_dsn with
           | some s => some s
           | Option.none =>
             match kw.dsn with
             | some d => d
             | Option.none => env.pytest_sentry_dsn
  , traces_sample_rate := kw.traces_sample_rate.getD 1
  , auto_enabling_integrations := kw.auto_enabling_integrations.getD true
  , environment := kw.environment.getD "test"
  , integrations :=
      kw.integrations.getD [] ++
        [Integration.pytest (PytestIntegration.init env.pytest_sentry_always_report Option.none)] }

/-- A Reporting Context (`sentry_sdk.Hub`): it owns at most one
Reporting Destination.  `Hub()` (no client) is the explicitly disabled
context. -/
structure Hub where
  client : Option Client
deriving DecidableEq

/-- `Client.integrations` lookup of the pytest integration, as done by
`hub.get_integration(PytestIntegration)`. -/
def Client.get_pytest_integration (c : Client) : Option PytestIntegration :=
  c.integrations.findSome? fun i =>
    match i with
    | Integration.pytest p => some p
    | Integration.otherIntegration _ => Option.none

/-- `Hub.get_integration(PytestIntegration)`: `Option.none` when the
hub has no client or the client list lacks the integration. -/
def Hub.get_pytest_integration (h : Hub) : Option PytestIntegration :=
  h.client.bind Client.get_pytest_integration

/-- `DEFAULT_HUB = Hub(Client())` (src line 140), parameterised by the
process environment. -/
def DEFAULT_HUB (env : Env) : Hub :=
  Hub.mk (some (Client.init env Option.none ClientKwargs.empty))

/-- The value shapes a `sentry_client` marker argument can take, as
enumerated by `_resolve_hub_marker_value` (src lines 143-172).
`callable ret` is a zero-argument callable returning `ret`;
`otherType t` is a value of any unenumerated Python type named `t`. -/
inductive MarkerValue where
  | none
  | callable (ret : MarkerValue)
  | str (s : String)
  | dict (kw : ClientKwargs)
  | client (c : Client)
  | hub (h : Hub)
  | otherType (tyName : String)
deriving DecidableEq

/-- The Python type name used in the `RuntimeError` message
(`repr(type(marker_value))`, rendered here without quoting). -/
def MarkerValue.type_name : MarkerValue → String
  | MarkerValue.none => "NoneType"
  | MarkerValue.callable _ => "function"
  | MarkerValue.str _ => "str"
  | MarkerValue.dict _ => "dict"
  | MarkerValue.client _ => "Client"
  | MarkerValue.hub _ => "Hub"
  | MarkerValue.otherType t => t

/-- The configuration-error message of src lines 168-172. -/
def marker_error_message (t : String) : String :=
  "The sentry_client value must be a client, hub or string, not " ++ t

/-- The chain of shape checks of src lines 152-172, applied after the
absence default and the single callable invocation: `None` disables
reporting, a string is a positional DSN, a dict is spread into the
`Client` constructor, a `Client` is wrapped, a `Hub` is returned
unchanged, anything else (including a callable returned by a callable)
is a `RuntimeError`. -/
def resolve_literal (env : Env) : MarkerValue → Except String Hub
  | MarkerValue.none => Except.ok (Hub.mk Option.none)
  | MarkerValue.str s => Except.ok (Hub.mk (some (Client.init env (some s) ClientKwargs.empty)))
  | MarkerValue.dict kw => Except.ok (Hub.mk (some (Client.init env Option.none kw)))
  | MarkerValue.client c => Except.ok (Hub.mk (some c))
  | MarkerValue.hub h => Except.ok h
  | v => Except.error (marker_error_message (MarkerValue.type_name v))

/-- `_resolve_hub_marker_value` (src lines 143-172).  The argument is
`Option.none` when the item carries no `sentry_client` marker (the
Python code receives the marker object and reads `marker.args[0]`;
here the marker is identified with its first argument).  Marker
absence defaults to `DEFAULT_HUB`, a callable is invoked exactly once,
then the literal shape checks run. -/
def _resolve_hub_marker_value (env : Env) (marker_value : Option MarkerValue) :
    Except String Hub :=
  let v := match marker_value with
           | Option.none => MarkerValue.hub (DEFAULT_HUB env)
           | some v => v
  let v1 := match v with
            | MarkerValue.callable r => r
            | v => v
  resolve_literal env v1

/-- C2: the Marker Resolver is deterministic (a total Lean function)
and total over the enumerated shapes: absence resolves to the
process-wide default hub, a callable is invoked once and its result
resolved as a literal, `None` yields a hub with no client, a string
yields a fresh hub whose client has that string as DSN, a dict is
spread into the client constructor, a `Client` is wrapped in a fresh
hub, a `Hub` is returned unchanged, and every unenumerated type fails
with the configuration error naming that type. -/
theorem marker_resolver_total_cases : ∀ env : Env,
    _resolve_hub_marker_value env Option.none = Except.ok (DEFAULT_HUB env) ∧
    (∀ v, _resolve_hub_marker_value env (some (MarkerValue.callable v)) = resolve_literal env v) ∧
    _resolve_hub_marker_value env (some MarkerValue.none) = Except.ok (Hub.mk Option.none) ∧
    (∀ s, _resolve_hub_marker_value env (some (MarkerValue.str s)) =
      Except.ok (Hub.mk (some (Client.init env (some s) ClientKwargs.empty)))) ∧
    (∀ s, (Client.init env (some s) ClientKwargs.empty).dsn = some s) ∧
    (∀ kw, _resolve_hub_marker_value env (some (MarkerValue.dict kw)) =
      Except.ok (Hub.mk (some (Client.init env Option.none kw)))) ∧
    (∀ c, _resolve_hub_marker_value env (some (MarkerValue.client c)) =
      Except.ok (Hub.mk (some c))) ∧
    (∀ h, _resolve_hub_marker_value env (some (MarkerValue.hub h)) = Except.ok h) ∧
    (∀ t, _resolve_hub_marker_value env (some (MarkerValue.otherType t)) =
      Except.error (marker_error_message t)) := by
  intro env
  exact ⟨rfl, fun v => rfl, rfl, fun s => rfl, fun s => rfl, fun kw => rfl,
    fun c => rfl, fun h => rfl, fun t => rfl⟩

/-- C7: with no explicit constructor argument, `always_report` is true
exactly when the environment string, lowercased, is "1", "true" or
"yes" (unset reads as the empty string and yields false); an explicit
boolean argument overrides the environment entirely. -/
theorem always_report_env_and_override : ∀ (s : Option String) (b : Bool),
    ((PytestIntegration.init s Option.none).always_report = true ↔
      (str_lower (s.getD "") = "1" ∨ str_lower (s.getD "") = "true" ∨
        str_lower (s.getD "") = "yes")) ∧
    PytestIntegration.init s (some b) = ⟨b⟩ := by
  intro s b
  constructor
  · simp [PytestIntegration.init, truthy_env_strings, List.contains, List.elem_eq_mem]
  · rfl

/-- Evaluation of C7 at concrete inputs: the environment value "TRUE"
yields `always_report = true` when no argument is given, and an
explicit `false` argument overrides it. -/
theorem always_report_env_and_override_witness :
    (PytestIntegration.init (some "TRUE") Option.none).always_report = true ∧
    PytestIntegration.init (some "TRUE") (some false) = ⟨false⟩ :=
  ⟨((always_report_env_and_override (some "TRUE") false).1).mpr (by decide),
    (always_report_env_and_override (some "TRUE") false).2⟩

/-- A stack frame of a captured event: its originating module name,
its `in_app` flag (absent before post-processing is possible), and all
remaining key/value fields, which the post-processor never touches.
Per the SDK contract assumed by the source (which reads
`frame["module"]` unconditionally), every frame carries a module
name. -/
structure Frame where
  module : String
  in_app : Option Bool
  extra : List (String × String)
deriving DecidableEq

/-- A stack trace: the `"frames"` list of a `stacktrace` dict. -/
structure Stacktrace where
  frames : List Frame
deriving DecidableEq

/-- One entry of `event["exception"]["values"]`: an optional stack
trace plus the untouched remaining fields. -/
structure ExceptionEntry where
  stacktrace : Option Stacktrace
  extra : List (String × String)
deriving DecidableEq

/-- A captured event as seen by `_process_event`: the optional
`"exception"` entry list, the optional top-level `"stacktrace"`, and
all remaining fields. -/
structure Event where
  exception : Option (List ExceptionEntry)
  stacktrace : Option Stacktrace
  extra : List (String × String)
deriving DecidableEq

/-- Python `s.startswith(p)`, as a prefix test on the character
lists (kernel-reducible, unlike the byte-position-based
`String.startsWith`). -/
def starts_with (s p : String) : Bool :=
  p.data.isPrefixOf s.data

/-- A string starts with another exactly when the latter's characters
followed by some rest give the former's characters. -/
theorem starts_with_iff (s p : String) :
    starts_with s p = true ↔ ∃ r, s.data = p.data ++ r := by
  rw [starts_with, List.isPrefixOf_iff_prefix]
  exact ⟨fun ⟨r, h⟩ => ⟨r, h.symm⟩, fun ⟨r, h⟩ => ⟨r, h.symm⟩⟩

/-- The frame classification of `_process_stacktrace` (src lines
197-201): a frame is in application code unless its module starts
with one of the fixed framework namespace strings. -/
def frame_in_app (module : String) : Bool :=
  !(starts_with module "_pytest." || starts_with module "pytest." ||
    starts_with module "pluggy.")

/-- The claim-side reading of the framework allow-list: the module
name is one of the framework strings followed by anything. -/
def is_framework_module (m : String) : Prop :=
  (∃ r, m.data = ("_pytest.").data ++ r) ∨
  (∃ r, m.data = ("pytest.").data ++ r) ∨
  (∃ r, m.data = ("pluggy.").data ++ r)

/-- The per-frame assignment `frame["in_app"] = ...` of src line 199,
as a functional update. -/
def set_frame_in_app (f : Frame) : Frame :=
  { f with in_app := some (frame_in_app f.module) }

/-- `_process_stacktrace` (src lines 197-201): classify every frame of
the trace. -/
def _process_stacktrace (st : Stacktrace) : Stacktrace :=
  ⟨st.frames.map set_frame_in_app⟩

/-- The loop body of src lines 187-189: process an exception entry's
stack trace when it has one. -/
def process_exception_entry (x : ExceptionEntry) : ExceptionEntry :=
  { x with stacktrace := x.stacktrace.map _process_stacktrace }

/-- `_process_event` (src lines 185-194): process the stack trace of
every exception entry, then the top-level stack trace, and return the
event.  The `Option` result models the SDK event-processor contract
under which returning `None` would suppress submission; the source
always executes `return event`. -/
def _process_event (e : Event) : Option Event :=
  let e1 := match e.exception with
            | some entries => { e with exception := some (entries.map process_exception_entry) }
            | Option.none => e
  let e2 := match e1.stacktrace with
            | some st => { e1 with stacktrace := some (_process_stacktrace st) }
            | Option.none => e1
  some e2

/-- The frames of an exception entry, empty when it has no stack
trace. -/
def entry_frames (x : ExceptionEntry) : List Frame :=
  match x.stacktrace with
  | some st => st.frames
  | Option.none => []

/-- All stack frames the post-processor visits: those of every
exception entry, then those of the top-level stack trace. -/
def Event.all_frames (e : Event) : List Frame :=
  (match e.exception with
   | some entries => (entries.map entry_frames).flatten
   | Option.none => []) ++
  (match e.stacktrace with
   | some st => st.frames
   | Option.none => [])

/-- Frames of a processed entry are the processed frames of the
original entry. -/
theorem entry_frames_process (x : ExceptionEntry) :
    entry_frames (process_exception_entry x) = (entry_frames x).map set_frame_in_app := by
  cases h : x.stacktrace <;>
    simp [entry_frames, process_exception_entry, _process_stacktrace, h]

/-- Composition form of `entry_frames_process`. -/
theorem entry_frames_process_comp :
    entry_frames ∘ process_exception_entry = List.map set_frame_in_app ∘ entry_frames :=
  funext entry_frames_process

/-- C6: every frame of the processed event — across all exception
entries and the top-level stack trace — has `in_app` set to true
exactly when its module name is not any of the framework strings
"_pytest.", "pytest.", "pluggy." followed by anything; in particular
module "pluggy._hooks" is classified as framework code and module
"myproject.mymodule" as application code. -/
theorem frames_in_app_iff_not_framework_module : ∀ e : Event,
    (_process_event e).map Event.all_frames =
      some (e.all_frames.map set_frame_in_app) ∧
    (∀ f : Frame, (set_frame_in_app f).in_app = some true ↔
      ¬ is_framework_module f.module) ∧
    frame_in_app "pluggy._hooks" = false ∧
    frame_in_app "myproject.mymodule" = true := by
  rintro ⟨ex, st, extra⟩
  refine ⟨?_, ?_, by decide, by decide⟩
  · cases ex <;> cases st <;>
      simp [_process_event, Event.all_frames, _process_stacktrace,
        entry_frames_process_comp]
  · intro f
    simp only [set_frame_in_app, frame_in_app, Option.some_inj,
      Bool.not_eq_true', is_framework_module]
    rw [← starts_with_iff, ← starts_with_iff, ← starts_with_iff]
    cases h1 : starts_with f.module "_pytest." <;>
      cases h2 : starts_with f.module "pytest." <;>
        cases h3 : starts_with f.module "pluggy." <;> simp

/-- Two frames agree on everything except possibly `in_app`. -/
def frame_agrees (f f' : Frame) : Prop :=
  f'.module = f.module ∧ f'.extra = f.extra

/-- Two stack traces have pointwise agreeing frames. -/
def stacktrace_frames_agree (st st' : Stacktrace) : Prop :=
  List.Forall₂ frame_agrees st.frames st'.frames

/-- Lift a binary relation to `Option`: both absent, or both present
and related. -/
def option_agrees {α : Type} (r : α → α → Prop) : Option α → Option α → Prop
  | Option.none, Option.none => True
  | some a, some b => r a b
  | _, _ => False

/-- Two exception entries agree except possibly the `in_app` flags of
their frames. -/
def entry_agrees (x x' : ExceptionEntry) : Prop :=
  x'.extra = x.extra ∧ option_agrees stacktrace_frames_agree x.stacktrace x'.stacktrace

/-- Two events agree except possibly the `in_app` flags of their
frames: the same remaining fields, the same presence and shape of the
exception entry list and of the top-level stack trace. -/
def event_agrees_except_in_app (e e' : Event) : Prop :=
  e'.extra = e.extra ∧
  option_agrees (List.Forall₂ entry_agrees) e.exception e'.exception ∧
  option_agrees stacktrace_frames_agree e.stacktrace e'.stacktrace

/-- A list is pointwise related to its image under a map whose
function relates every element to its image. -/
theorem forall2_of_pointwise {α : Type} {r : α → α → Prop} {f : α → α}
    (h : ∀ a, r a (f a)) : ∀ l : List α, List.Forall₂ r l (l.map f) := by
  intro l
  induction l with
  | nil => exact List.Forall₂.nil
  | cons x xs ih => exact List.Forall₂.cons (h x) ih

/-- Every stack trace agrees with its processed form. -/
theorem stacktrace_agrees_process (st : Stacktrace) :
    stacktrace_frames_agree st (_process_stacktrace st) :=
  forall2_of_pointwise (fun _ => ⟨rfl, rfl⟩) st.frames

/-- Every exception entry agrees with its processed form. -/
theorem entry_agrees_process (x : ExceptionEntry) :
    entry_agrees x (process_exception_entry x) := by
  refine ⟨rfl, ?_⟩
  cases h : x.stacktrace <;>
    simp [process_exception_entry, option_agrees, h, stacktrace_agrees_process]

/-- C10: the Event Post-Processor always returns an event (it never
returns the suppressing value), and that event agrees with the input
everywhere except possibly the `in_app` flag of stack frames: the
remaining event fields, the remaining fields of every exception entry,
and the module and remaining fields of every frame are unchanged. -/
theorem process_event_returns_event_only_in_app_changed : ∀ e : Event,
    ∃ e', _process_event e = some e' ∧ event_agrees_except_in_app e e' := by
  rintro ⟨ex, st, extra⟩
  cases ex <;> cases st <;> refine ⟨_, rfl, rfl, ?_, ?_⟩ <;>
    first
      | trivial
      | exact forall2_of_pointwise entry_agrees_process _
      | exact stacktrace_agrees_process _

/-- A captured failure record: the `(excinfo.type, excinfo.value,
excinfo.tb)` triple that `capture_exception` receives (src line 137),
with each component opaque. -/
structure ExcInfo where
  ty : String
  value : String
  tb : String
deriving DecidableEq

/-- A test item, carrying its Exception Chain.  Python stores the
chain as the lazily-created attribute `pytest_sentry_exc_chain`
(`getattr` defaulting to `[]`, src line 126); an absent attribute is
identified with the empty list. -/
structure Item where
  pytest_sentry_exc_chain : List ExcInfo
deriving DecidableEq

/-- The phase outcome object handed to `pytest_runtest_makereport`:
the phase name (`call.when`) and the raised failure, if any
(`call.excinfo`). -/
structure CallInfo where
  phase : String
  excinfo : Option ExcInfo
deriving DecidableEq

/-- The reporting logic of `pytest_runtest_makereport` after the
report is available (src lines 125-137).  Returns the updated item
and the list of failures submitted via `capture_exception`, in order.
`always_report` is the flag of the integration resolved from the
active hub (src line 133); this code only runs when the hookwrapper
found the integration present, so the flag is modelled as resolved.
The scope tagging of src lines 121-123 has no effect on the chain or
on submissions and is not modelled. -/
def pytest_runtest_makereport (always_report : Bool) (item : Item) (call : CallInfo) :
    Item × List ExcInfo :=
  if call.phase = "call" then
    let cur_exc_chain := item.pytest_sentry_exc_chain
    let cur_exc_chain := match call.excinfo with
                         | some e => cur_exc_chain ++ [e]
                         | Option.none => cur_exc_chain
    let item' := match call.excinfo with
                 | some _ => { item with pytest_sentry_exc_chain := cur_exc_chain }
                 | Option.none => item
    let captures := if (!cur_exc_chain.isEmpty && call.excinfo.isNone) || always_report
                    then cur_exc_chain else []
    (item', captures)
  else (item, [])

/-- The integration constructed with neither an explicit argument nor
the environment toggle set: the default policy, `always_report =
false`. -/
def default_integration : PytestIntegration :=
  PytestIntegration.init Option.none Option.none

/-- A concrete captured failure used by the counterexamples. -/
def exc0 : ExcInfo := ⟨"AssertionError", "assert failed", "tb0"⟩

/-- C3 counterexample: a test whose "call" phase raises, with a fresh
item and a single firing of the outcome hook under the default policy,
gets exactly one failure appended to its chain but zero submissions —
not one submission as claimed (the condition at src line 135 requires
the chain non-empty AND no raise in the final call, or
`always_report`). -/
theorem single_call_failure_not_submitted_counterexample :
    (pytest_runtest_makereport default_integration.always_report ⟨[]⟩
      ⟨"call", some exc0⟩).1.pytest_sentry_exc_chain.length = 1 ∧
    (pytest_runtest_makereport default_integration.always_report ⟨[]⟩
      ⟨"call", some exc0⟩).2.length = 0 ∧
    ¬ ((pytest_runtest_makereport default_integration.always_report ⟨[]⟩
      ⟨"call", some exc0⟩).2.length = 1) := by
  decide

/-- C3 (amended): for a fresh test item whose "call" phase raises and
whose "call" outcome hook fires exactly once, exactly one failure is
appended to the Exception Chain, and under the default policy
(`always_report` false) it is submitted zero times — nothing is sent
for a test that simply failed and was never retried. -/
theorem single_call_failure_chain_no_submission : ∀ e : ExcInfo,
    (pytest_runtest_makereport default_integration.always_report ⟨[]⟩
      ⟨"call", some e⟩).1.pytest_sentry_exc_chain = [e] ∧
    (pytest_runtest_makereport default_integration.always_report ⟨[]⟩
      ⟨"call", some e⟩).2 = [] := by
  intro e
  exact ⟨rfl, rfl⟩

/-- C4: starting from a fresh item under the default policy, a first
"call" outcome firing with a failure followed by a second firing
reporting a pass keeps the first failure in the chain, submits it on
the passing outcome, and the total number of submissions of that
failure across both firings is exactly one. -/
theorem retried_failure_submitted_exactly_once : ∀ e : ExcInfo,
    (pytest_runtest_makereport default_integration.always_report
      (pytest_runtest_makereport default_integration.always_report ⟨[]⟩
        ⟨"call", some e⟩).1
      ⟨"call", Option.none⟩).1.pytest_sentry_exc_chain = [e] ∧
    (pytest_runtest_makereport default_integration.always_report
      (pytest_runtest_makereport default_integration.always_report ⟨[]⟩
        ⟨"call", some e⟩).1
      ⟨"call", Option.none⟩).2 = [e] ∧
    ((pytest_runtest_makereport default_integration.always_report ⟨[]⟩
        ⟨"call", some e⟩).2 ++
      (pytest_runtest_makereport default_integration.always_report
        (pytest_runtest_makereport default_integration.always_report ⟨[]⟩
          ⟨"call", some e⟩).1
        ⟨"call", Option.none⟩).2).count e = 1 := by
  intro e
  refine ⟨rfl, rfl, ?_⟩
  simp [pytest_runtest_makereport, default_integration, PytestIntegration.init,
    truthy_env_strings, str_lower]

/-- C8 counterexample: a "setup"-phase outcome that records a raised
failure appends nothing to the Exception Chain — the guard at src
line 125 restricts chain accumulation to the "call" phase, against
the claim that every failing phase appends one record. -/
theorem setup_failure_not_appended_counterexample :
    (pytest_runtest_makereport false ⟨[]⟩
      ⟨"setup", some exc0⟩).1.pytest_sentry_exc_chain = [] ∧
    ¬ ((pytest_runtest_makereport false ⟨[]⟩
      ⟨"setup", some exc0⟩).1.pytest_sentry_exc_chain.length = 1) := by
  decide

/-- C8 (amended): for every item, policy and raised failure, the
outcome hook appends exactly that one failure record to the item's
Exception Chain when the phase is "call", and leaves the chain
unchanged for every other phase (setup, teardown, ...). -/
theorem chain_appended_only_on_call_phase :
    ∀ (always_report : Bool) (item : Item) (e : ExcInfo) (phase : String),
      (pytest_runtest_makereport always_report item ⟨phase, some e⟩).1.pytest_sentry_exc_chain =
        if phase = "call" then item.pytest_sentry_exc_chain ++ [e]
        else item.pytest_sentry_exc_chain := by
  intro always_report item e phase
  by_cases h : phase = "call" <;> simp [pytest_runtest_makereport, h]

/-- An observable step of the instrumentation: activating a Reporting
Context (`hub.__enter__`), deactivating one (`hub.__exit__`), or a
reporting call made by a plugin hook body (scope push, transaction
start/finish, tagging, capture). -/
inductive Ev where
  | push (h : Hub)
  | pop
  | report (s : String)
deriving DecidableEq

/-- The reporting calls a wrapped plugin hook body makes before
yielding to the engine and after resuming (for example
`pytest_runtest_call` starts a transaction before and finishes it
after). -/
structure HookBody where
  pre : List String
  post : List String
deriving DecidableEq

/-- A tree of phases as the engine runs them: plain engine work that
succeeds or raises, a phase wrapped by the `hookwrapper` interceptor
(carrying the item's marker value and the plugin hook body), and
sequencing.  Nesting `wrapped` inside `wrapped` models e.g. a
fixture-setup phase inside the test protocol phase. -/
inductive PhaseTree where
  | engine (ok : Bool)
  | wrapped (marker : Option MarkerValue) (hk : HookBody) (inner : PhaseTree)
  | seq (a b : PhaseTree)
deriving DecidableEq

/-- Result of running a phase tree: the active-context stack after the
phase, whether the phase raised, and the trace of observable steps. -/
structure RunResult where
  stack : List Hub
  raised : Bool
  trace : List Ev
deriving DecidableEq

/-- The currently active Reporting Context: the top of the context
stack. -/
def current_hub (s : List Hub) : Option Hub :=
  s.head?

/-- Semantics of `_with_hub` (src lines 52-75) over a phase tree.
Engine work leaves the stack alone.  A wrapped phase resolves the
item's hub from its marker (src line 55; a resolution error is the
`RuntimeError` propagating before any context switch).  If the
resolved hub lacks the `PytestIntegration`, the wrapper only yields
(src lines 57-58): the inner phase runs untouched and the plugin hook
body never executes.  Otherwise the wrapped span runs inside `with
hub:` — `Hub.__enter__` makes `hub` current for the whole span,
including the engine's consumption of the yielded result, and
`Hub.__exit__` restores the previously saved context on every exit
path, normal or raising.  An exception from the inner phase
propagates after the restore.  Sequencing short-circuits on a raise,
as exceptions abort the remaining phases of the enclosing scope. -/
def run (env : Env) : PhaseTree → List Hub → RunResult
  | PhaseTree.engine ok, s => ⟨s, !ok, []⟩
  | PhaseTree.seq a b, s =>
    let ra := run env a s
    if ra.raised then ⟨ra.stack, true, ra.trace⟩
    else
      let rb := run env b ra.stack
      ⟨rb.stack, rb.raised, ra.trace ++ rb.trace⟩
  | PhaseTree.wrapped marker hk inner, s =>
    match _resolve_hub_marker_value env marker with
    | Except.error _ => ⟨s, true, []⟩
    | Except.ok hub =>
      match hub.get_pytest_integration with
      | Option.none => run env inner s
      | some _ =>
        let ri := run env inner (hub :: s)
        ⟨s, ri.raised,
          Ev.push hub :: (hk.pre.map Ev.report) ++ ri.trace ++
            (hk.post.map Ev.report) ++ [Ev.pop]⟩

/-- Uninstrumented execution: the outcome (raised or not) of the same
phase tree with every interceptor erased. -/
def run_plain : PhaseTree → Bool
  | PhaseTree.engine ok => !ok
  | PhaseTree.seq a b =>
    if run_plain a then true else run_plain b
  | PhaseTree.wrapped _ _ inner => run_plain inner

/-- Instrumentation is disabled for every wrapped phase of the tree:
each marker resolves to a hub on which `get_integration` finds no
`PytestIntegration`. -/
def all_disabled (env : Env) : PhaseTree → Bool
  | PhaseTree.engine _ => true
  | PhaseTree.seq a b => all_disabled env a && all_disabled env b
  | PhaseTree.wrapped marker _ inner =>
    (match _resolve_hub_marker_value env marker with
     | Except.ok hub => hub.get_pytest_integration.isNone
     | Except.error _ => false) && all_disabled env inner

/-- Every run restores the context stack it started from. -/
theorem run_preserves_stack (env : Env) : ∀ (p : PhaseTree) (s : List Hub),
    (run env p s).stack = s := by
  intro p
  induction p with
  | engine ok => intro s; rfl
  | seq a b iha ihb =>
    intro s
    simp only [run]
    split
    · exact iha s
    · simp [ihb, iha]
  | wrapped marker hk inner ih =>
    intro s
    simp only [run]
    split
    · rfl
    · split
      · exact ih s
      · rfl

/-- C1: after any phase wrapped by the hookwrapper machinery
completes — whether the inner phase returned normally or raised, and
for arbitrary nesting of wrapped phases inside it — the context stack,
and with it the active Reporting Context, equals what was active
immediately before the phase began. -/
theorem hub_restored_after_wrapped_phase :
    ∀ (env : Env) (marker : Option MarkerValue) (hk : HookBody)
      (inner : PhaseTree) (s : List Hub),
      (run env (PhaseTree.wrapped marker hk inner) s).stack = s ∧
      current_hub (run env (PhaseTree.wrapped marker hk inner) s).stack = current_hub s := by
  intro env marker hk inner s
  exact ⟨run_preserves_stack env (PhaseTree.wrapped marker hk inner) s, by
    rw [run_preserves_stack env (PhaseTree.wrapped marker hk inner) s]⟩

/-- C5 counterexample to the claim as stated: the Integration Toggle
is not resolved from the currently-active global Reporting Context.
Here the globally active hub (top of the stack) has no client and
hence no toggle, yet a wrapped phase whose item carries no marker
resolves `DEFAULT_HUB`, finds the integration there, and runs fully
instrumented: a context is pushed and reporting calls are made. -/
theorem global_toggle_check_counterexample :
    ((current_hub [Hub.mk Option.none]).bind Hub.get_pytest_integration = Option.none) ∧
    (run ⟨Option.none, Option.none⟩
      (PhaseTree.wrapped Option.none ⟨["start_transaction"], ["finish_transaction"]⟩
        (PhaseTree.engine true))
      [Hub.mk Option.none]).trace ≠ [] ∧
    Ev.push (DEFAULT_HUB ⟨Option.none, Option.none⟩) ∈
      (run ⟨Option.none, Option.none⟩
        (PhaseTree.wrapped Option.none ⟨["start_transaction"], ["finish_transaction"]⟩
          (PhaseTree.engine true))
        [Hub.mk Option.none]).trace := by
  refine ⟨rfl, ?_, ?_⟩
  · decide
  · decide

/-- C5 (amended): when every wrapped phase of a tree resolves its
item's Reporting Context (from the `sentry_client` marker, not from
the globally active context) to one on which the Integration Toggle
is absent, the whole run is a pure pass-through: the trace is empty —
no reporting calls, no context pushed or popped — the stack is
untouched and the outcome equals that of uninstrumented execution. -/
theorem disabled_integration_passthrough :
    ∀ (env : Env) (p : PhaseTree) (s : List Hub),
      all_disabled env p = true → run env p s = ⟨s, run_plain p, []⟩ := by
  intro env p
  induction p with
  | engine ok => intro s _; rfl
  | seq a b iha ihb =>
    intro s h
    simp only [all_disabled, Bool.and_eq_true] at h
    simp only [run, iha s h.1, ihb s h.2, run_plain]
    split
    · next hr => simp_all
    · next hr => simp_all
  | wrapped marker hk inner ih =>
    intro s h
    simp only [all_disabled, Bool.and_eq_true] at h
    simp only [run, run_plain]
    cases hres : _resolve_hub_marker_value env marker with
    | error msg => simp [hres] at h
    | ok hub =>
      simp only [hres] at h
      cases hint : hub.get_pytest_integration with
      | none => simp [hint, ih s h.2]
      | some i => simp [hint] at h

/-- Evaluation of C5 (amended) at a concrete input: a phase whose
marker is the explicit `None` (reporting disabled for the test)
resolves to a clientless hub, the toggle is absent, and the run is a
pass-through. -/
theorem disabled_integration_passthrough_witness :
    all_disabled ⟨Option.none, Option.none⟩
      (PhaseTree.wrapped (some MarkerValue.none) ⟨["set_tag"], []⟩
        (PhaseTree.engine true)) = true ∧
    run ⟨Option.none, Option.none⟩
      (PhaseTree.wrapped (some MarkerValue.none) ⟨["set_tag"], []⟩
        (PhaseTree.engine true))
      [Hub.mk Option.none] =
      ⟨[Hub.mk Option.none],
        run_plain (PhaseTree.wrapped (some MarkerValue.none) ⟨["set_tag"], []⟩
          (PhaseTree.engine true)), []⟩ :=
  ⟨by decide,
    disabled_integration_passthrough ⟨Option.none, Option.none⟩
      (PhaseTree.wrapped (some MarkerValue.none) ⟨["set_tag"], []⟩
        (PhaseTree.engine true))
      [Hub.mk Option.none] (by decide)⟩

/-- Python `s.rfind(c)` for a single character, over the character
list: the highest index holding `c`, or `Option.none` in place of
Python's -1. -/
def rfind_char : List Char → Char → Option Nat
  | [], _ => Option.none
  | x :: xs, c =>
    match rfind_char xs c with
    | some i => some (i + 1)
    | Option.none => if x = c then some 0 else Option.none

/-- The nodeid truncation of `pytest_runtest_call` (src lines 96-104):
when the nodeid ends in "]", cut it at the last "[" if one exists
(`rfind` returning -1 leaves the name unchanged). -/
def truncated_nodeid (nodeid : String) : String :=
  if nodeid.endsWith "]" then
    match rfind_char nodeid.data '[' with
    | some k => ⟨nodeid.data.take k⟩
    | Option.none => nodeid
  else nodeid

/-- The transaction started by `pytest_runtest_call` (src lines
92-107): its `op` and its `name`, the latter being `op`, a space and
the truncated nodeid. -/
def pytest_runtest_call_transaction (nodeid : String) : String × String :=
  ("pytest.runtest.call", "pytest.runtest.call" ++ " " ++ truncated_nodeid nodeid)

/-- The claim-side description of the truncation: if the nodeid ends
with "]" and contains "[", drop everything from the last "[" on
(computed here from the right end of the string); otherwise the
nodeid is unchanged. -/
def truncate_at_last_open_bracket (nodeid : String) : String :=
  if nodeid.endsWith "]" && nodeid.data.contains '[' then
    ⟨(((nodeid.data.reverse.dropWhile fun x => x != '[').drop 1).reverse)⟩
  else nodeid


/-- `rfind_char` finds nothing exactly when the character is absent. -/
theorem rfind_char_eq_none_iff (c : Char) :
    ∀ l : List Char, rfind_char l c = Option.none ↔ c ∉ l := by
  intro l
  induction l with
  | nil => simp [rfind_char]
  | cons x xs ih =>
    simp only [rfind_char, List.mem_cons]
    cases h : rfind_char xs c with
    | some i =>
      have hmem : c ∈ xs := by
        by_contra hc
        exact absurd (ih.mpr hc) (by simp [h])
      simp [hmem]
    | none =>
      have hmem : c ∉ xs := ih.mp h
      by_cases hx : x = c
      · simp [hx]
      · simp [hx, hmem, Ne.symm hx]

/-- The prefix cut at the index `rfind_char` returns is exactly the
part of the list before its last occurrence of the character. -/
theorem rfind_char_take (c : Char) :
    ∀ (l : List Char) (k : Nat), rfind_char l c = some k →
      l.take k = ((l.reverse.dropWhile fun x => x != c).drop 1).reverse := by
  intro l
  induction l with
  | nil => intro k h; simp [rfind_char] at h
  | cons x xs ih =>
    intro k h
    simp only [rfind_char] at h
    cases hx : rfind_char xs c with
    | some i =>
      rw [hx] at h
      have h' : some (i + 1) = some k := h
      obtain rfl : i + 1 = k := Option.some.inj h'
      have hmem : c ∈ xs := by
        by_contra hc
        exact absurd ((rfind_char_eq_none_iff c xs).mpr hc) (by simp [hx])
      have hne : ¬ (List.dropWhile (fun y => y != c) xs.reverse).isEmpty = true := by
        rw [List.isEmpty_iff, List.dropWhile_eq_nil_iff]
        intro hall
        have h2 := hall c (List.mem_reverse.mpr hmem)
        simp at h2
      have hne' : (List.dropWhile (fun y => y != c) xs.reverse) ≠ [] := by
        intro hnil
        exact hne (by simp [hnil])
      obtain ⟨d, D, hD⟩ := List.exists_cons_of_ne_nil hne'
      rw [List.take_succ_cons, List.reverse_cons, List.dropWhile_append, if_neg hne, hD]
      have hih := ih i hx
      rw [hD] at hih
      simp only [List.drop_succ_cons, List.drop_zero] at hih ⊢
      rw [List.cons_append, List.drop_succ_cons, List.drop_zero, List.reverse_append,
        List.reverse_cons, List.reverse_nil, List.nil_append, List.singleton_append, hih]
    | none =>
      rw [hx] at h
      have h' : (if x = c then some 0 else Option.none) = some k := h
      by_cases hxc : x = c
      · rw [if_pos hxc] at h'
        obtain rfl : 0 = k := Option.some.inj h'
        have hmem : c ∉ xs := (rfind_char_eq_none_iff c xs).mp hx
        have hnil : (List.dropWhile (fun y => y != c) xs.reverse) = [] := by
          rw [List.dropWhile_eq_nil_iff]
          intro y hy
          rw [List.mem_reverse] at hy
          simp only [bne_iff_ne, ne_eq]
          intro hyc
          exact hmem (hyc ▸ hy)
        rw [List.take_zero, List.reverse_cons, List.dropWhile_append,
          if_pos (by simp [hnil]), hxc]
        simp
      · rw [if_neg hxc] at h'
        exact absurd h' (by simp)

/-- C9: for every nodeid, the transaction of the "call" phase has
operation "pytest.runtest.call" and name "pytest.runtest.call "
followed by the nodeid truncated at its last "[" when the nodeid ends
with "]" and contains "[" — a nodeid ending in "]" without any "[",
or not ending in "]", is used unchanged. -/
theorem call_transaction_op_and_name : ∀ nodeid : String,
    (pytest_runtest_call_transaction nodeid).1 = "pytest.runtest.call" ∧
    (pytest_runtest_call_transaction nodeid).2 =
      "pytest.runtest.call" ++ " " ++ truncate_at_last_open_bracket nodeid := by
  intro nodeid
  refine ⟨rfl, ?_⟩
  simp only [pytest_runtest_call_transaction]
  congr 1
  cases he : nodeid.endsWith "]" with
  | false => simp [truncated_nodeid, truncate_at_last_open_bracket, he]
  | true =>
    cases hr : rfind_char nodeid.data '[' with
    | none =>
      have hnm : '[' ∉ nodeid.data := (rfind_char_eq_none_iff '[' nodeid.data).mp hr
      simp [truncated_nodeid, truncate_at_last_open_bracket, he, hr, hnm]
    | some k =>
      have hmem : '[' ∈ nodeid.data := by
        by_contra hc
        exact absurd ((rfind_char_eq_none_iff '[' nodeid.data).mpr hc) (by simp [hr])
      have ht := rfind_char_take '[' nodeid.data k hr
      simp [truncated_nodeid, truncate_at_last_open_bracket, he, hr, hmem, ht]

/-- A concrete event holding one exception-entry frame from the
hook-dispatch machinery and one top-level application frame. -/
def event0 : Event :=
  ⟨some [⟨some ⟨[⟨"pluggy._hooks", Option.none, []⟩]⟩, []⟩],
    some ⟨[⟨"myproject.mymodule", Option.none, []⟩]⟩, []⟩

/-- Evaluation of C6 at a concrete event: the "pluggy._hooks" frame
comes out marked not-in-app and the "myproject.mymodule" frame
in-app. -/
theorem frames_in_app_witness :
    (_process_event event0).map Event.all_frames =
      some [⟨"pluggy._hooks", some false, []⟩,
        ⟨"myproject.mymodule", some true, []⟩] := by
  rw [(frames_in_app_iff_not_framework_module event0).1]
  decide
